import Mathlib

/-!
Shallow embedding of the biometric-attendance core of the Ferretto Edu Pro
repository (src/app.js), together with models of the Similarity Engine and
the Enrollment/Verification controllers described in the design spec, whose
implementations are not present under src/ (only their variable declarations
at src/app.js:2148-2151 and a simulated caller remain).

Numeric conventions: JavaScript numbers are modelled as exact rationals (ℚ)
where the source only does field arithmetic, and as reals (ℝ) where the
spec-modelled Similarity Engine needs square roots.
-/

/-- An Embedding is a fixed-length numeric vector (spec §3); dimensions are
not tracked in the type, mirroring the dynamically-typed source. -/
abbrev Embedding := List ℝ

/-- Modelled from the spec: dot product of two numeric vectors, truncating at
the shorter length, as the Similarity Engine's loop would compute it. The
Similarity Engine (`cosineSimilarity`, `meanEmbedding`, spec §4.2) has no
implementation under src/. -/
def dot : List ℝ → List ℝ → ℝ
  | x :: xs, y :: ys => x * y + dot xs ys
  | _, _ => 0

/-- Squared Euclidean norm of a vector, as the sum of squared entries. -/
def normSq (a : List ℝ) : ℝ := dot a a

/-- Modelled from the spec (§4.2): `cosineSimilarity(a, b)` returns the
normalized dot product, or exactly -1 when either input is empty or the
lengths differ (the "not comparable" sentinel). -/
noncomputable def cosineSimilarity (a b : List ℝ) : ℝ :=
  if a.isEmpty ∨ b.isEmpty ∨ a.length ≠ b.length then -1
  else dot a b / (Real.sqrt (normSq a) * Real.sqrt (normSq b))

/-- Element-wise sum of two vectors (helper of the mean). -/
noncomputable def vecAdd : List ℝ → List ℝ → List ℝ := List.zipWith (· + ·)

/-- Modelled from the spec (§4.2): `meanEmbedding(list)` returns `none` for an
empty list, otherwise the element-wise arithmetic mean of the vectors. -/
noncomputable def meanEmbedding : List (List ℝ) → Option (List ℝ)
  | [] => none
  | v :: rest =>
      some ((rest.foldl vecAdd v).map (fun x => x / ((rest.length + 1 : ℕ) : ℝ)))

/-! Embedding of the attendance scanner of src/app.js (lines 1501-1564).
`startAttendanceScanner` is a simulation: it never opens a camera, captures
no frame and performs no similarity comparison; after a fixed 2000ms timeout
it unconditionally calls `markAttendanceSuccess` with hard-coded coordinates
and confidence 0.92. -/

/-- One attendance record, with the fields built at src/app.js:1535-1549.
`id` is `Date.now()`, `device` is `navigator.userAgent`; both enter through
the environment. -/
structure AttendanceRecord where
  id : ℕ
  userId : ℕ
  courseId : Option ℕ
  date : String
  time : String
  lat : ℚ
  lng : ℚ
  confidence : ℚ
  status : String
  method : String
  notes : String
  verified : Bool
  device : String
deriving DecidableEq

/-- The slice of a user record the scanner reads: id, courseId and the
optional stored reference descriptor (`faceDescriptor`). -/
structure User where
  id : ℕ
  courseId : Option ℕ
  faceDescriptor : Option (List ℝ)

/-- The mutable application state the scanner touches: the logged-in user,
the attendance store (`appData.attendance`) and the user store
(`appData.users`, never written by this code path). -/
structure AppState where
  currentUser : User
  users : List User
  attendance : List AttendanceRecord

/-- Ambient browser environment of one run: `Date.now()`, the two formatted
date/time strings, the user agent, and whether the external geolocation
collaborator is available (never consulted by the scanner path). -/
structure Env where
  nowId : ℕ
  dateStr : String
  timeStr : String
  userAgent : String
  geoAvailable : Bool

/-- A geolocation coordinate triple as passed to `markAttendanceSuccess`. -/
structure Coords where
  latitude : ℚ
  longitude : ℚ
  accuracy : ℚ
deriving DecidableEq

/-- JavaScript `Math.round`: round half toward positive infinity,
`Math.round(x) = ⌊x + 0.5⌋`. -/
def jsRound (x : ℚ) : ℤ := ⌊x + 1 / 2⌋

/-- Embeds `markAttendanceSuccess(coords, confidence)` (src/app.js:1530-1564):
builds one attendance record and pushes it onto `appData.attendance`. The
toast, log, dashboard refresh and alert are UI effects with no state in this
model. -/
def markAttendanceSuccess (env : Env) (st : AppState) (coords : Coords)
    (confidence : ℚ) : AppState :=
  { st with attendance := st.attendance ++ [{
      id := env.nowId
      userId := st.currentUser.id
      courseId := st.currentUser.courseId
      date := env.dateStr
      time := env.timeStr
      lat := coords.latitude
      lng := coords.longitude
      confidence := (jsRound (confidence * 100) : ℚ) / 100
      status := "Present"
      method := "FaceSafe Ultra Biometric"
      notes := "Automated face verification"
      verified := true
      device := env.userAgent }] }

/-- The duplicate-day check of src/app.js:1507-1510: some attendance record of
the current user has today's date and status exactly `'Present'`. -/
def alreadyMarkedToday (env : Env) (st : AppState) : Bool :=
  st.attendance.any fun a =>
    a.userId == st.currentUser.id && a.date == env.dateStr && a.status == "Present"

/-- The hard-coded coordinates the simulated scanner passes (src/app.js:1522-1526). -/
def simulatedCoords : Coords := ⟨40.7128, -74.0060, 10⟩

/-- Outcome of one call to `startAttendanceScanner`: early return because no
descriptor is stored, early return because the user declined the duplicate-day
confirm, or the scheduled `setTimeout` success path with its delay, coordinates
and confidence. -/
inductive ScanResult where
  | notEnrolled
  | declined
  | marked (delayMs : ℕ) (coords : Coords) (confidence : ℚ)
deriving DecidableEq

/-- Embeds `startAttendanceScanner()` (src/app.js:1501-1528). `confirmChoice`
is the value the browser `confirm` dialog would return; the source only shows
the dialog when `alreadyMarked` holds. The 2000ms `setTimeout` callback is
modelled as having fired (single-threaded event loop, nothing cancels the
timer), so the returned state includes the effect of `markAttendanceSuccess`. -/
def startAttendanceScanner (env : Env) (confirmChoice : Bool) (st : AppState) :
    ScanResult × AppState :=
  if st.currentUser.faceDescriptor.isNone then
    (.notEnrolled, st)
  else if alreadyMarkedToday env st && !confirmChoice then
    (.declined, st)
  else
    (.marked 2000 simulatedCoords 0.92,
     markAttendanceSuccess env st simulatedCoords 0.92)

/-- Replace the logged-in user's stored descriptor, leaving everything else
unchanged (used to state that the scanner ignores the descriptor's value). -/
def setDescriptor (st : AppState) (d : Option (List ℝ)) : AppState :=
  { st with currentUser := { st.currentUser with faceDescriptor := d } }

/-! Spec-modelled Enrollment and Verification controllers (spec §4.4, §4.5).
Their implementations are absent from src/: only the declarations
`registrationInterval`, `registrationSamples`, `registrationUserId` and
`attendanceScanInterval` (src/app.js:2148-2151) and the simulated caller
survive, so the controllers are modelled from the spec text. -/

/-- Modelled from the spec (§4.4): enrollment configuration constants. -/
structure EnrollConfig where
  regSamplesTarget : ℕ
  smallFixedFloor : ℕ

/-- Modelled from the spec (§4.4): `minValidSamples =
max(floor(regSamplesTarget/2), smallFixedFloor)`. -/
def minValidSamples (cfg : EnrollConfig) : ℕ :=
  max (cfg.regSamplesTarget / 2) cfg.smallFixedFloor

/-- States of the Enrollment Controller state machine (spec §4.4). -/
inductive EnrollState where
  | Idle
  | Capturing
  | Completed
  | LowSamples
  | Cancelled
deriving DecidableEq

/-- Terminal result of one enrollment run: final state, whether the Capture
Session was closed, the embedding committed to the identity store (`none`
means no write), and the identity's stored reference embedding afterwards. -/
structure EnrollOutcome where
  state : EnrollState
  sessionClosed : Bool
  written : Option Embedding
  newStored : Option Embedding

/-- Modelled from the spec (§4.4): the tick loop's accumulator. Each tick
yields `some` embedding (a valid capture, appended and counted) or `none`
(a frame without a face, silently skipped); the loop stops collecting once
the sample counter reaches `regSamplesTarget`. -/
def collectSamples : ℕ → List (Option Embedding) → List Embedding
  | _, [] => []
  | target, t :: ts =>
      if target = 0 then []
      else match t with
        | some e => e :: collectSamples (target - 1) ts
        | none => collectSamples target ts

/-- Modelled from the spec (§4.4): one whole enrollment run over a finite
tick sequence, finalized as specified: fewer than `minValidSamples` valid
captures end in `LowSamples` with no write; otherwise the mean embedding is
written as the identity's new reference (full replace) and the run ends in
`Completed`. The `none` arm of the mean is unreachable when
`minValidSamples cfg ≥ 1`. Every exit closes the session. -/
noncomputable def runEnrollment (cfg : EnrollConfig) (ticks : List (Option Embedding))
    (stored : Option Embedding) : EnrollOutcome :=
  let samples := collectSamples cfg.regSamplesTarget ticks
  if samples.length < minValidSamples cfg then
    ⟨.LowSamples, true, none, stored⟩
  else
    match meanEmbedding samples with
    | none => ⟨.LowSamples, true, none, stored⟩
    | some m => ⟨.Completed, true, some m, some m⟩

/-- Modelled from the spec (§4.5): verification configuration constants. -/
structure VerifyConfig where
  matchThreshold : ℝ
  scanTimeoutMs : ℕ
  pollPeriodMs : ℕ

/-- States of the Verification Controller state machine (spec §4.5). -/
inductive VerifyState where
  | Idle
  | Scanning
  | Matched
  | NoMatch
  | Cancelled
  | Error
deriving DecidableEq

/-- Terminal result of one verification run: final state, the reported
`bestSimilaritySeen`, whether the Capture Session was closed, and how many
Attendance Records the run emitted. -/
structure VerifyOutcome where
  state : VerifyState
  best : ℝ
  sessionClosed : Bool
  appended : ℕ

/-- Modelled from the spec (§4.5): the poll loop. Each tick captures `some`
embedding or `none`; a capture's similarity against the reference updates
`bestSimilaritySeen`; the first similarity reaching `matchThreshold` stops the
loop with `Matched` and exactly one emitted record; exhausting the ticks
(the timeout deadline) ends in `NoMatch` with no record. Every exit closes
the session. -/
noncomputable def runVerifyLoop (th : ℝ) (R : Embedding) (best : ℝ) :
    List (Option Embedding) → VerifyOutcome
  | [] => ⟨.NoMatch, best, true, 0⟩
  | t :: ts =>
      match t with
      | none => runVerifyLoop th R best ts
      | some e =>
          if th ≤ cosineSimilarity e R then
            ⟨.Matched, max best (cosineSimilarity e R), true, 1⟩
          else
            runVerifyLoop th R (max best (cosineSimilarity e R)) ts

/-- Modelled from the spec (§4.5): the tick captures that occur before the
`scanTimeoutMs` deadline, one every `pollPeriodMs`, drawn from a stream of
per-tick capture results. -/
def scanTicks (cfg : VerifyConfig) (stream : ℕ → Option Embedding) :
    List (Option Embedding) :=
  (List.range (cfg.scanTimeoutMs / cfg.pollPeriodMs)).map stream

/-- Modelled from the spec (§4.5): one whole verification run, starting from
`bestSimilaritySeen = -1` and polling until a match or the timeout. -/
noncomputable def runVerification (cfg : VerifyConfig) (R : Embedding)
    (stream : ℕ → Option Embedding) : VerifyOutcome :=
  runVerifyLoop cfg.matchThreshold R (-1) (scanTicks cfg stream)

/-- Modelled from the spec (§4.4, §4.5, §5): what a controller's loop
observes at each step, in order: one capture tick (`some` embedding, or
`none` for a frame without a face) or a cooperative `cancel()` request. -/
inductive RunEvent where
  | tick (r : Option Embedding)
  | cancel

/-- Modelled from the spec (§4.3, §7): the ways the Capture Session's `open`
can fail when a controller starts. -/
inductive StartFailure where
  | PermissionDenied
  | NotSecureContext
  | DeviceUnavailable

/-- Modelled from the spec (§4.4): the enrollment tick loop over an event
sequence. Ticks accumulate as in `collectSamples` until the sample counter
reaches `regSamplesTarget`; a `cancel()` before that ends the run with the
accumulator discarded (`none`). -/
def collectSamplesEv :
    ℕ → List Embedding → List RunEvent → Option (List Embedding)
  | _, acc, [] => some acc
  | target, acc, e :: es =>
      if target = 0 then some acc
      else
        match e with
        | .cancel => none
        | .tick (some emb) => collectSamplesEv (target - 1) (acc ++ [emb]) es
        | .tick none => collectSamplesEv target acc es

/-- Modelled from the spec (§4.4): a whole enrollment run over an event
sequence. A `cancel()` ends in `Cancelled` with the session closed, the
accumulator discarded and no data mutation; otherwise the run finalizes
exactly as `runEnrollment` does. -/
noncomputable def runEnrollmentFull (cfg : EnrollConfig)
    (events : List RunEvent) (stored : Option Embedding) : EnrollOutcome :=
  match collectSamplesEv cfg.regSamplesTarget [] events with
  | none => ⟨.Cancelled, true, none, stored⟩
  | some samples =>
      if samples.length < minValidSamples cfg then
        ⟨.LowSamples, true, none, stored⟩
      else
        match meanEmbedding samples with
        | none => ⟨.LowSamples, true, none, stored⟩
        | some m => ⟨.Completed, true, some m, some m⟩

/-- Modelled from the spec (§4.5): the verification poll loop over an event
sequence. A `cancel()` stops the loop in `Cancelled` with the session closed
and no record emitted; ticks behave exactly as in `runVerifyLoop`. -/
noncomputable def runVerifyLoopFull (th : ℝ) (R : Embedding) (best : ℝ) :
    List RunEvent → VerifyOutcome
  | [] => ⟨.NoMatch, best, true, 0⟩
  | e :: es =>
      match e with
      | .cancel => ⟨.Cancelled, best, true, 0⟩
      | .tick none => runVerifyLoopFull th R best es
      | .tick (some emb) =>
          if th ≤ cosineSimilarity emb R then
            ⟨.Matched, max best (cosineSimilarity emb R), true, 1⟩
          else
            runVerifyLoopFull th R (max best (cosineSimilarity emb R)) es

/-- Modelled from the spec (§4.5, §7): a whole verification run whose `open`
may fail. A failed open aborts in `Error` before any mutation, with no open
session left behind; a successful open runs the poll loop from
`bestSimilaritySeen = -1`. -/
noncomputable def runVerificationFull (cfg : VerifyConfig) (R : Embedding)
    (openResult : Option StartFailure) (events : List RunEvent) :
    VerifyOutcome :=
  match openResult with
  | some _ => ⟨.Error, -1, true, 0⟩
  | none => runVerifyLoopFull cfg.matchThreshold R (-1) events

/-! Concrete fixtures used by the closed witness theorems. -/

/-- A concrete environment: 2026-10-11, morning, a fixed user agent. -/
def demoEnv : Env := ⟨1760000000000, "2026-10-11", "09:00:00", "DemoAgent", true⟩

/-- A user with no stored face descriptor. -/
def demoUser : User := ⟨2, some 101, none⟩

/-- Application state for the not-enrolled user, empty attendance store. -/
def demoState : AppState := ⟨demoUser, [demoUser], []⟩

/-- The same user with a stored (one-entry) reference descriptor. -/
def enrolledUser : User := ⟨2, some 101, some [1]⟩

/-- Application state for the enrolled user, empty attendance store. -/
def enrolledState : AppState := ⟨enrolledUser, [enrolledUser], []⟩

/-- C1: if the identity has no stored reference embedding (`faceDescriptor`
absent), `startAttendanceScanner` returns the NotEnrolled outcome immediately
and the whole state is unchanged; no capture session, timer or store write
occurs (the source path is the early return at src/app.js:1502-1505, before
any camera-related call). -/
theorem scanner_notEnrolled_no_mutation (env : Env) (c : Bool) (st : AppState)
    (h : st.currentUser.faceDescriptor = none) :
    startAttendanceScanner env c st = (.notEnrolled, st) := by
  simp [startAttendanceScanner, h]

/-- Witness for `scanner_notEnrolled_no_mutation` at a concrete state. -/
theorem scanner_notEnrolled_no_mutation_witness :
    demoState.currentUser.faceDescriptor = none ∧
    startAttendanceScanner demoEnv true demoState = (.notEnrolled, demoState) :=
  ⟨rfl, scanner_notEnrolled_no_mutation demoEnv true demoState rfl⟩

/-- The duplicate-day check ignores the stored descriptor. -/
theorem alreadyMarkedToday_setDescriptor (env : Env) (st : AppState)
    (d : Option (List ℝ)) :
    alreadyMarkedToday env (setDescriptor st d) = alreadyMarkedToday env st := rfl

/-- C4: for every user with a stored descriptor (and duplicate-day prompt
confirmed when it appears), `startAttendanceScanner` always succeeds: the
outcome is the 2000ms-delayed mark with confidence exactly 0.92 and the fixed
coordinates 40.7128 / -74.0060 / accuracy 10, and the appended record is fully
determined by the environment and user id alone. Moreover the outcome and the
appended attendance records are identical for any two stored descriptor
values: no frame is captured and no similarity comparison against the
descriptor ever happens. -/
theorem scanner_is_simulation :
    (∀ (env : Env) (c : Bool) (st : AppState) (d : List ℝ),
      st.currentUser.faceDescriptor = some d →
      (alreadyMarkedToday env st = false ∨ c = true) →
      startAttendanceScanner env c st =
        (.marked 2000 ⟨40.7128, -74.0060, 10⟩ 0.92,
         { st with attendance := st.attendance ++ [{
             id := env.nowId
             userId := st.currentUser.id
             courseId := st.currentUser.courseId
             date := env.dateStr
             time := env.timeStr
             lat := 40.7128
             lng := -74.0060
             confidence := 0.92
             status := "Present"
             method := "FaceSafe Ultra Biometric"
             notes := "Automated face verification"
             verified := true
             device := env.userAgent }] })) ∧
    (∀ (env : Env) (c : Bool) (st : AppState) (d1 d2 : List ℝ),
      (startAttendanceScanner env c (setDescriptor st (some d1))).1 =
        (startAttendanceScanner env c (setDescriptor st (some d2))).1 ∧
      (startAttendanceScanner env c (setDescriptor st (some d1))).2.attendance =
        (startAttendanceScanner env c (setDescriptor st (some d2))).2.attendance) := by
  constructor
  · intro env c st d hd hp
    have h1 : st.currentUser.faceDescriptor.isNone = false := by simp [hd]
    have h2 : (alreadyMarkedToday env st && !c) = false := by
      rcases hp with h | h <;> simp [h]
    have hconf : (jsRound ((0.92 : ℚ) * 100) : ℚ) / 100 = (0.92 : ℚ) := by
      norm_num [jsRound]
    simp [startAttendanceScanner, h1, h2, markAttendanceSuccess, simulatedCoords,
      hconf]
  · intro env c st d1 d2
    constructor <;>
      · simp [startAttendanceScanner, setDescriptor, alreadyMarkedToday,
          markAttendanceSuccess]
        split <;> simp_all

/-- Witness for `scanner_is_simulation` at a concrete enrolled state with an
empty attendance store. -/
theorem scanner_is_simulation_witness :
    enrolledState.currentUser.faceDescriptor = some [(1 : ℝ)] ∧
    alreadyMarkedToday demoEnv enrolledState = false ∧
    (startAttendanceScanner demoEnv false enrolledState).1 =
      ScanResult.marked 2000 ⟨40.7128, -74.0060, 10⟩ 0.92 := by
  refine ⟨rfl, rfl, ?_⟩
  rw [scanner_is_simulation.1 demoEnv false enrolledState [1] rfl (Or.inl rfl)]

/-- C2: on the success path (descriptor present, duplicate-day prompt absent
or confirmed), exactly one Attendance Record is appended: the new store is the
old one plus a single record carrying the achieved similarity (the run's
confidence), the identity, the current date and time, and the obtained
coordinates; the run also reports the success outcome. The whole run is
unaffected by the geolocation collaborator's availability, so a geolocation
failure can never abort a match. -/
theorem scanner_match_appends_one_record (env : Env) (c : Bool) (st : AppState)
    (hd : st.currentUser.faceDescriptor.isSome = true)
    (hp : alreadyMarkedToday env st = false ∨ c = true) :
    ∃ r : AttendanceRecord,
      (startAttendanceScanner env c st).2.attendance = st.attendance ++ [r] ∧
      r.confidence = 0.92 ∧
      r.userId = st.currentUser.id ∧
      r.date = env.dateStr ∧
      r.time = env.timeStr ∧
      r.lat = simulatedCoords.latitude ∧
      r.lng = simulatedCoords.longitude ∧
      (startAttendanceScanner env c st).1 = .marked 2000 simulatedCoords 0.92 ∧
      (∀ g : Bool,
        startAttendanceScanner { env with geoAvailable := g } c st =
          startAttendanceScanner env c st) := by
  have h1 : st.currentUser.faceDescriptor.isNone = false := by
    cases h : st.currentUser.faceDescriptor <;> simp_all
  have h2 : (alreadyMarkedToday env st && !c) = false := by
    rcases hp with h | h <;> simp [h]
  have hconf : (jsRound ((0.92 : ℚ) * 100) : ℚ) / 100 = (0.92 : ℚ) := by
    norm_num [jsRound]
  refine ⟨AttendanceRecord.mk env.nowId st.currentUser.id
      st.currentUser.courseId env.dateStr env.timeStr simulatedCoords.latitude
      simulatedCoords.longitude 0.92 "Present" "FaceSafe Ultra Biometric"
      "Automated face verification" true env.userAgent,
    ?_, rfl, rfl, rfl, rfl, rfl, rfl, ?_, fun g => rfl⟩
  · simp [startAttendanceScanner, h1, h2, markAttendanceSuccess, hconf]
  · simp [startAttendanceScanner, h1, h2]

/-- Witness for `scanner_match_appends_one_record` at a concrete enrolled
state. -/
theorem scanner_match_appends_one_record_witness :
    enrolledState.currentUser.faceDescriptor.isSome = true ∧
    (alreadyMarkedToday demoEnv enrolledState = false ∨ true = true) ∧
    ∃ r : AttendanceRecord,
      (startAttendanceScanner demoEnv true enrolledState).2.attendance =
        enrolledState.attendance ++ [r] ∧
      r.confidence = 0.92 ∧
      r.userId = enrolledState.currentUser.id ∧
      r.date = demoEnv.dateStr ∧
      r.time = demoEnv.timeStr ∧
      r.lat = simulatedCoords.latitude ∧
      r.lng = simulatedCoords.longitude ∧
      (startAttendanceScanner demoEnv true enrolledState).1 =
        .marked 2000 simulatedCoords 0.92 ∧
      (∀ g : Bool,
        startAttendanceScanner { demoEnv with geoAvailable := g } true
            enrolledState =
          startAttendanceScanner demoEnv true enrolledState) :=
  ⟨rfl, Or.inr rfl,
    scanner_match_appends_one_record demoEnv true enrolledState rfl
      (Or.inr rfl)⟩

/-- C10: every record built by `markAttendanceSuccess` stores the confidence
rounded to two decimal places in the JavaScript sense
(`Math.round(confidence * 100) / 100`, with `Math.round x = ⌊x + 1/2⌋`), and
always has status `'Present'` and `verified = true`, for every input
confidence; exactly one record is appended and its remaining fields come from
the environment and the current user. -/
theorem markAttendance_record_fields (env : Env) (st : AppState)
    (coords : Coords) (conf : ℚ) :
    ∃ r : AttendanceRecord,
      (markAttendanceSuccess env st coords conf).attendance =
        st.attendance ++ [r] ∧
      r.confidence = ((⌊conf * 100 + 1 / 2⌋ : ℤ) : ℚ) / 100 ∧
      r.status = "Present" ∧
      r.verified = true ∧
      r.userId = st.currentUser.id ∧
      r.lat = coords.latitude ∧
      r.lng = coords.longitude ∧
      (markAttendanceSuccess env st coords conf).users = st.users ∧
      (markAttendanceSuccess env st coords conf).currentUser = st.currentUser :=
  ⟨_, rfl, rfl, rfl, rfl, rfl, rfl, rfl, rfl, rfl⟩

/-- A pre-existing attendance record of the same user, same day, but with
status `'Absent'`: the source's duplicate-day check at src/app.js:1508-1510
requires status `'Present'`, so this record does not trigger the prompt. -/
def absentRecord : AttendanceRecord :=
  ⟨7, 2, some 101, "2026-10-11", "08:00:00", 0, 0, 0, "Absent",
   "Manual", "", false, "DemoAgent"⟩

/-- State of the enrolled user whose attendance store already holds a record
for today, with status `'Absent'`. -/
def dupAbsentState : AppState := ⟨enrolledUser, [enrolledUser], [absentRecord]⟩

/-- C9 counterexample: an Attendance Record for the identity and the current
date exists (status `'Absent'`), the user would decline the prompt
(`confirmChoice = false`), yet the run starts anyway and appends a record: the
source only prompts when a record with status exactly `'Present'` exists, so
the claim as stated fails on records with any other status. -/
theorem duplicateDay_prompt_counterexample :
    (∃ a ∈ dupAbsentState.attendance,
      a.userId = dupAbsentState.currentUser.id ∧ a.date = demoEnv.dateStr) ∧
    (startAttendanceScanner demoEnv false dupAbsentState).1 =
      ScanResult.marked 2000 simulatedCoords 0.92 ∧
    (startAttendanceScanner demoEnv false dupAbsentState).2.attendance.length =
      dupAbsentState.attendance.length + 1 := by
  refine ⟨⟨absentRecord, by simp [dupAbsentState], rfl, rfl⟩, ?_, ?_⟩ <;> rfl

/-- C9 as amended: if an Attendance Record with status `'Present'` already
exists for the identity for the current date (the condition
`alreadyMarkedToday`), the caller asks for confirmation, and when the user
declines the run does not start: the outcome is Declined and the state —
in particular the attendance store — is unchanged. -/
theorem duplicateDay_present_decline_blocks (env : Env) (st : AppState)
    (hm : alreadyMarkedToday env st = true) :
    startAttendanceScanner env false st = (.declined, st) ∨
    startAttendanceScanner env false st = (.notEnrolled, st) := by
  by_cases h1 : st.currentUser.faceDescriptor.isNone
  · right; simp [startAttendanceScanner, h1]
  · left; simp [startAttendanceScanner, h1, hm]

/-- A pre-existing `'Present'` record of the same user for today. -/
def presentRecord : AttendanceRecord :=
  ⟨8, 2, some 101, "2026-10-11", "08:30:00", 0, 0, 0.9, "Present",
   "FaceSafe Ultra Biometric", "", true, "DemoAgent"⟩

/-- State of the enrolled user with today's attendance already marked
`'Present'`. -/
def dupPresentState : AppState := ⟨enrolledUser, [enrolledUser], [presentRecord]⟩

/-- Witness for `duplicateDay_present_decline_blocks` at a concrete state. -/
theorem duplicateDay_present_decline_blocks_witness :
    alreadyMarkedToday demoEnv dupPresentState = true ∧
    (startAttendanceScanner demoEnv false dupPresentState =
        (.declined, dupPresentState) ∨
      startAttendanceScanner demoEnv false dupPresentState =
        (.notEnrolled, dupPresentState)) :=
  ⟨rfl, duplicateDay_present_decline_blocks demoEnv dupPresentState rfl⟩

/-- A cancel-free event sequence collects exactly what `collectSamples`
collects: the event loop conservatively extends the tick loop. -/
theorem collectSamplesEv_map_tick :
    ∀ (ticks : List (Option Embedding)) (target : ℕ) (acc : List Embedding),
      collectSamplesEv target acc (ticks.map RunEvent.tick) =
        some (acc ++ collectSamples target ticks) := by
  intro ticks
  induction ticks with
  | nil => intro target acc; simp [collectSamplesEv, collectSamples]
  | cons t ts ih =>
    intro target acc
    by_cases h : target = 0
    · simp [collectSamplesEv, collectSamples, h]
    · cases t with
      | none => simp [collectSamplesEv, collectSamples, h, ih]
      | some e => simp [collectSamplesEv, collectSamples, h, ih]

/-- On a cancel-free event sequence, the full enrollment run coincides with
`runEnrollment`. -/
theorem runEnrollmentFull_map_tick (cfg : EnrollConfig)
    (ticks : List (Option Embedding)) (stored : Option Embedding) :
    runEnrollmentFull cfg (ticks.map RunEvent.tick) stored =
      runEnrollment cfg ticks stored := by
  unfold runEnrollmentFull runEnrollment
  rw [collectSamplesEv_map_tick ticks cfg.regSamplesTarget []]
  simp

/-- On a cancel-free event sequence, the full verification poll loop
coincides with `runVerifyLoop`. -/
theorem runVerifyLoopFull_map_tick (th : ℝ) (R : Embedding) :
    ∀ (ticks : List (Option Embedding)) (b : ℝ),
      runVerifyLoopFull th R b (ticks.map RunEvent.tick) =
        runVerifyLoop th R b ticks := by
  intro ticks
  induction ticks with
  | nil => intro b; rfl
  | cons t ts ih =>
    intro b
    cases t with
    | none => simpa [runVerifyLoopFull, runVerifyLoop] using ih b
    | some e =>
      by_cases hs : th ≤ cosineSimilarity e R
      · simp [runVerifyLoopFull, runVerifyLoop, hs]
      · simp [runVerifyLoopFull, runVerifyLoop, hs, ih]

/-- C3: all-or-nothing commit. For the verification side embedded from the
source: any run of `startAttendanceScanner` whose outcome is not the Marked
success leaves the whole state (attendance store and user store included)
unchanged, and a Marked run appends exactly one attendance record while
leaving the user store and current user untouched. For the spec-modelled
controllers, over every terminal state the spec admits: an enrollment run
ending in any state other than `Completed` — `LowSamples` or `Cancelled` —
writes no embedding and leaves the stored reference unchanged, and a
verification run ending in any state other than `Matched` — `NoMatch`,
`Cancelled`, or `Error` from a failed `open` — emits no Attendance Record. -/
theorem terminal_failures_no_mutation :
    (∀ (env : Env) (c : Bool) (st : AppState),
      (startAttendanceScanner env c st).1 = .notEnrolled ∨
        (startAttendanceScanner env c st).1 = .declined →
      (startAttendanceScanner env c st).2 = st) ∧
    (∀ (env : Env) (c : Bool) (st : AppState) (d : ℕ) (cd : Coords) (cf : ℚ),
      (startAttendanceScanner env c st).1 = .marked d cd cf →
      ∃ r : AttendanceRecord,
        (startAttendanceScanner env c st).2 =
          { st with attendance := st.attendance ++ [r] }) ∧
    (∀ (cfg : EnrollConfig) (events : List RunEvent)
        (stored : Option Embedding),
      (runEnrollmentFull cfg events stored).state ≠ .Completed →
      (runEnrollmentFull cfg events stored).written = none ∧
      (runEnrollmentFull cfg events stored).newStored = stored) ∧
    (∀ (cfg : VerifyConfig) (R : Embedding)
        (openResult : Option StartFailure) (events : List RunEvent),
      (runVerificationFull cfg R openResult events).state ≠ .Matched →
      (runVerificationFull cfg R openResult events).appended = 0) := by
  refine ⟨?_, ?_, ?_, ?_⟩
  · intro env c st h
    by_cases h1 : st.currentUser.faceDescriptor.isNone
    · simp [startAttendanceScanner, h1]
    · by_cases h2 : (alreadyMarkedToday env st && !c) = true
      · simp [startAttendanceScanner, h1, h2]
      · exfalso
        simp [startAttendanceScanner, h1, h2] at h
  · intro env c st d cd cf h
    by_cases h1 : st.currentUser.faceDescriptor.isNone
    · exfalso; simp [startAttendanceScanner, h1] at h
    · by_cases h2 : (alreadyMarkedToday env st && !c) = true
      · exfalso; simp [startAttendanceScanner, h1, h2] at h
      · have hrun : startAttendanceScanner env c st =
            (.marked 2000 simulatedCoords 0.92,
             markAttendanceSuccess env st simulatedCoords 0.92) := by
          simp [startAttendanceScanner, h1, h2]
        refine ⟨AttendanceRecord.mk env.nowId st.currentUser.id
          st.currentUser.courseId env.dateStr env.timeStr
          simulatedCoords.latitude simulatedCoords.longitude
          ((jsRound ((0.92 : ℚ) * 100) : ℚ) / 100) "Present"
          "FaceSafe Ultra Biometric" "Automated face verification" true
          env.userAgent, ?_⟩
        rw [hrun]
        rfl
  · intro cfg events stored h
    unfold runEnrollmentFull at *
    cases hc : collectSamplesEv cfg.regSamplesTarget [] events with
    | none => simp [hc]
    | some samples =>
      simp only [hc] at h ⊢
      by_cases hlen : samples.length < minValidSamples cfg
      · simp [hlen]
      · simp only [hlen, if_false] at h ⊢
        cases hm : meanEmbedding samples with
        | none => simp [hm]
        | some m => exfalso; simp [hm] at h
  · intro cfg R openResult events
    cases openResult with
    | some f => intro _; rfl
    | none =>
      suffices hgen : ∀ (evs : List RunEvent) (b : ℝ),
          (runVerifyLoopFull cfg.matchThreshold R b evs).state ≠ .Matched →
          (runVerifyLoopFull cfg.matchThreshold R b evs).appended = 0 by
        exact hgen events (-1)
      intro evs
      induction evs with
      | nil => intro b _; rfl
      | cons e es ih =>
        intro b h
        cases e with
        | cancel => rfl
        | tick r =>
          cases r with
          | none => exact ih b h
          | some emb =>
            by_cases hs : cfg.matchThreshold ≤ cosineSimilarity emb R
            · exfalso; simp [runVerifyLoopFull, hs] at h
            · simp only [runVerifyLoopFull, if_neg hs] at h ⊢
              exact ih _ h

/-- Witness for `terminal_failures_no_mutation`: each conjunct applied at
concrete inputs reaching every non-success terminal state: a not-enrolled
run and a successful run of the source scanner, an all-`none` enrollment run
(`LowSamples`), a cancelled enrollment run (`Cancelled`), a cancelled
verification run (`Cancelled`), and a verification run whose `open` fails
(`Error`). -/
theorem terminal_failures_no_mutation_witness :
    ((startAttendanceScanner demoEnv true demoState).1 =
        ScanResult.notEnrolled ∨
      (startAttendanceScanner demoEnv true demoState).1 =
        ScanResult.declined) ∧
    (startAttendanceScanner demoEnv true demoState).2 = demoState ∧
    (startAttendanceScanner demoEnv true enrolledState).1 =
      ScanResult.marked 2000 simulatedCoords 0.92 ∧
    (∃ r : AttendanceRecord,
      (startAttendanceScanner demoEnv true enrolledState).2 =
        { enrolledState with
            attendance := enrolledState.attendance ++ [r] }) ∧
    (runEnrollmentFull ⟨20, 6⟩ (List.replicate 20 (RunEvent.tick none))
        none).state = EnrollState.LowSamples ∧
    (runEnrollmentFull ⟨20, 6⟩ (List.replicate 20 (RunEvent.tick none))
        none).written = none ∧
    (runEnrollmentFull ⟨20, 6⟩ [RunEvent.cancel] none).state =
      EnrollState.Cancelled ∧
    (runEnrollmentFull ⟨20, 6⟩ [RunEvent.cancel] none).written = none ∧
    (runEnrollmentFull ⟨20, 6⟩ [RunEvent.cancel] none).newStored = none ∧
    (runVerificationFull ⟨62 / 100, 15000, 250⟩ [1] none
        [RunEvent.cancel]).state = VerifyState.Cancelled ∧
    (runVerificationFull ⟨62 / 100, 15000, 250⟩ [1] none
        [RunEvent.cancel]).appended = 0 ∧
    (runVerificationFull ⟨62 / 100, 15000, 250⟩ [1]
        (some StartFailure.PermissionDenied) []).state = VerifyState.Error ∧
    (runVerificationFull ⟨62 / 100, 15000, 250⟩ [1]
        (some StartFailure.PermissionDenied) []).appended = 0 := by
  have hstate : (runEnrollmentFull ⟨20, 6⟩
      (List.replicate 20 (RunEvent.tick none)) none).state =
      EnrollState.LowSamples := by
    norm_num [runEnrollmentFull, collectSamplesEv, minValidSamples,
      List.replicate]
  have hne : (runEnrollmentFull ⟨20, 6⟩
      (List.replicate 20 (RunEvent.tick none)) none).state ≠
      EnrollState.Completed := by rw [hstate]; decide
  have hcanE : (runEnrollmentFull ⟨20, 6⟩ [RunEvent.cancel] none).state =
      EnrollState.Cancelled := rfl
  have hcanEne : (runEnrollmentFull ⟨20, 6⟩ [RunEvent.cancel] none).state ≠
      EnrollState.Completed := by rw [hcanE]; decide
  have hcanV : (runVerificationFull ⟨62 / 100, 15000, 250⟩ [1] none
      [RunEvent.cancel]).state = VerifyState.Cancelled := rfl
  have hcanVne : (runVerificationFull ⟨62 / 100, 15000, 250⟩ [1] none
      [RunEvent.cancel]).state ≠ VerifyState.Matched := by
    rw [hcanV]; decide
  have herr : (runVerificationFull ⟨62 / 100, 15000, 250⟩ [1]
      (some StartFailure.PermissionDenied) []).state = VerifyState.Error :=
    rfl
  have herrne : (runVerificationFull ⟨62 / 100, 15000, 250⟩ [1]
      (some StartFailure.PermissionDenied) []).state ≠ VerifyState.Matched :=
    by rw [herr]; decide
  refine ⟨Or.inl rfl,
    terminal_failures_no_mutation.1 demoEnv true demoState (Or.inl rfl),
    rfl,
    terminal_failures_no_mutation.2.1 demoEnv true enrolledState 2000
      simulatedCoords 0.92 rfl,
    hstate,
    (terminal_failures_no_mutation.2.2.1 ⟨20, 6⟩
      (List.replicate 20 (RunEvent.tick none)) none hne).1,
    hcanE,
    (terminal_failures_no_mutation.2.2.1 ⟨20, 6⟩ [RunEvent.cancel] none
      hcanEne).1,
    (terminal_failures_no_mutation.2.2.1 ⟨20, 6⟩ [RunEvent.cancel] none
      hcanEne).2,
    hcanV,
    terminal_failures_no_mutation.2.2.2 ⟨62 / 100, 15000, 250⟩ [1] none
      [RunEvent.cancel] hcanVne,
    herr,
    terminal_failures_no_mutation.2.2.2 ⟨62 / 100, 15000, 250⟩ [1]
      (some StartFailure.PermissionDenied) [] herrne⟩

/-- The accumulator never holds more valid samples than the tick sequence
yielded. -/
theorem collectSamples_length_le (target : ℕ)
    (ticks : List (Option Embedding)) :
    (collectSamples target ticks).length ≤ (ticks.filterMap id).length := by
  induction ticks generalizing target with
  | nil => simp [collectSamples]
  | cons t ts ih =>
    by_cases h : target = 0
    · simp [collectSamples, h]
    · cases t with
      | none =>
        have := ih target
        simp only [collectSamples, if_neg h, List.filterMap_cons, id]
        omega
      | some e =>
        have := ih (target - 1)
        simp only [collectSamples, if_neg h, List.filterMap_cons, id]
        simp only [List.length_cons]
        omega

/-- C7: an enrollment run whose ticks yield fewer than `minValidSamples`
valid captures ends in `LowSamples` with the Capture Session closed, no
embedding written, and the identity's stored reference unchanged. -/
theorem enrollment_low_samples_rejects (cfg : EnrollConfig)
    (ticks : List (Option Embedding)) (stored : Option Embedding)
    (h : (ticks.filterMap id).length < minValidSamples cfg) :
    runEnrollment cfg ticks stored =
      ⟨.LowSamples, true, none, stored⟩ := by
  have hlt : (collectSamples cfg.regSamplesTarget ticks).length <
      minValidSamples cfg :=
    lt_of_le_of_lt (collectSamples_length_le _ _) h
  simp [runEnrollment, hlt]

/-- Witness for `enrollment_low_samples_rejects`: a target of 20 ticks all
yielding no face (the spec's own test scenario), floor 6, previously unset
reference. -/
theorem enrollment_low_samples_rejects_witness :
    ((List.replicate 20 (none : Option Embedding)).filterMap id).length <
      minValidSamples ⟨20, 6⟩ ∧
    runEnrollment ⟨20, 6⟩ (List.replicate 20 none) none =
      ⟨.LowSamples, true, none, none⟩ := by
  have h : ((List.replicate 20 (none : Option Embedding)).filterMap
      id).length < minValidSamples ⟨20, 6⟩ := by decide
  exact ⟨h, enrollment_low_samples_rejects ⟨20, 6⟩ (List.replicate 20 none)
    none h⟩

/-- The poll loop on a tick sequence whose every capture scores strictly
below the threshold: it never matches, closes the session, appends nothing,
and reports the running maximum of the observed similarities (folded from
the initial `bestSimilaritySeen`). -/
theorem runVerifyLoop_all_below (th : ℝ) (R : Embedding) :
    ∀ (ticks : List (Option Embedding)) (b : ℝ),
    (∀ e : Embedding, some e ∈ ticks → cosineSimilarity e R < th) →
    runVerifyLoop th R b ticks =
      ⟨.NoMatch,
       (ticks.filterMap id).foldl (fun x e => max x (cosineSimilarity e R)) b,
       true, 0⟩ := by
  intro ticks
  induction ticks with
  | nil => intro b _; rfl
  | cons t ts ih =>
    intro b h
    cases t with
    | none =>
      simpa [runVerifyLoop] using
        ih b (fun e he => h e (List.mem_cons_of_mem _ he))
    | some e =>
      have hs : cosineSimilarity e R < th := h e (List.mem_cons_self _ _)
      simp only [runVerifyLoop, if_neg (not_le.mpr hs), List.filterMap_cons,
        id, List.foldl_cons]
      exact ih _ (fun x hx => h x (List.mem_cons_of_mem _ hx))

/-- C8: if the whole verification run (every tick within the
`scanTimeoutMs` deadline) never reaches `matchThreshold`, the controller
stops, closes the session, ends in `NoMatch`, appends no Attendance Record,
and reports `bestSimilaritySeen` equal to the maximum similarity observed
across the run's ticks (the fold of `max` from the initial -1). -/
theorem verification_timeout_no_match (cfg : VerifyConfig) (R : Embedding)
    (stream : ℕ → Option Embedding)
    (h : ∀ e : Embedding, some e ∈ scanTicks cfg stream →
      cosineSimilarity e R < cfg.matchThreshold) :
    runVerification cfg R stream =
      ⟨.NoMatch,
       ((scanTicks cfg stream).filterMap id).foldl
         (fun x e => max x (cosineSimilarity e R)) (-1),
       true, 0⟩ :=
  runVerifyLoop_all_below cfg.matchThreshold R (scanTicks cfg stream) (-1) h

/-- Witness for `verification_timeout_no_match`: threshold 0.62, a 15000ms
deadline polled every 250ms, and a camera stream that never finds a face. -/
theorem verification_timeout_no_match_witness :
    (∀ e : Embedding,
      some e ∈ scanTicks ⟨62 / 100, 15000, 250⟩ (fun _ => none) →
      cosineSimilarity e [1] < (62 / 100 : ℝ)) ∧
    runVerification ⟨62 / 100, 15000, 250⟩ [1] (fun _ => none) =
      ⟨.NoMatch,
       ((scanTicks ⟨62 / 100, 15000, 250⟩ (fun _ => none)).filterMap
           id).foldl (fun x e => max x (cosineSimilarity e [1])) (-1),
       true, 0⟩ := by
  have h : ∀ e : Embedding,
      some e ∈ scanTicks ⟨62 / 100, 15000, 250⟩ (fun _ => none) →
      cosineSimilarity e [1] < (62 / 100 : ℝ) := by
    intro e he
    exfalso
    simp [scanTicks] at he
  exact ⟨h, verification_timeout_no_match ⟨62 / 100, 15000, 250⟩ [1]
    (fun _ => none) h⟩

/-- Element-wise sum truncates at the shorter vector. -/
theorem vecAdd_length (a b : List ℝ) :
    (vecAdd a b).length = min a.length b.length := by
  simp [vecAdd]

/-- Entry of an element-wise sum, within bounds. -/
theorem vecAdd_getD (a b : List ℝ) (i : ℕ) (ha : i < a.length)
    (hb : i < b.length) :
    (vecAdd a b).getD i 0 = a.getD i 0 + b.getD i 0 := by
  have hi : i < (vecAdd a b).length := by
    rw [vecAdd_length]
    omega
  rw [List.getD_eq_getElem _ _ hi, List.getD_eq_getElem _ _ ha,
    List.getD_eq_getElem _ _ hb]
  simp [vecAdd]

/-- Folding element-wise sums over same-dimension vectors keeps the
dimension. -/
theorem foldl_vecAdd_length (d : ℕ) :
    ∀ (rest : List (List ℝ)) (acc : List ℝ), acc.length = d →
      (∀ v ∈ rest, v.length = d) → (rest.foldl vecAdd acc).length = d := by
  intro rest
  induction rest with
  | nil => intro acc ha _; simpa using ha
  | cons v vs ih =>
    intro acc ha hv
    simp only [List.foldl_cons]
    refine ih (vecAdd acc v) ?_ (fun w hw => hv w (List.mem_cons_of_mem _ hw))
    rw [vecAdd_length, ha, hv v (List.mem_cons_self _ _), min_self]

/-- Entry of a fold of element-wise sums: the accumulator's entry plus the
sum of the vectors' entries at that index. -/
theorem foldl_vecAdd_getD (d i : ℕ) (hi : i < d) :
    ∀ (rest : List (List ℝ)) (acc : List ℝ), acc.length = d →
      (∀ v ∈ rest, v.length = d) →
      (rest.foldl vecAdd acc).getD i 0 =
        acc.getD i 0 + (rest.map (fun v => v.getD i 0)).sum := by
  intro rest
  induction rest with
  | nil => intro acc _ _; simp
  | cons v vs ih =>
    intro acc ha hv
    have hvlen : v.length = d := hv v (List.mem_cons_self _ _)
    have hacc : (vecAdd acc v).length = d := by
      rw [vecAdd_length, ha, hvlen, min_self]
    simp only [List.foldl_cons, List.map_cons, List.sum_cons]
    rw [ih (vecAdd acc v) hacc (fun w hw => hv w (List.mem_cons_of_mem _ hw)),
      vecAdd_getD acc v i (by omega) (by omega)]
    ring

/-- Halving the element-wise sum of a vector with itself gives it back. -/
theorem half_vecAdd_self (v : List ℝ) :
    (vecAdd v v).map (fun x => x / (2 : ℝ)) = v := by
  induction v with
  | nil => rfl
  | cons x xs ih =>
    simp only [vecAdd] at ih ⊢
    simp only [List.zipWith_cons_cons, List.map_cons, add_self_div_two]
    rw [ih]

/-- C6: `meanEmbedding` returns `none` on the empty list; on a nonempty list
of same-dimension vectors it returns the element-wise arithmetic mean with
that same dimension; in particular the mean of `[v]` and of `[v, v]` is `v`
for every vector `v`. -/
theorem meanEmbedding_spec :
    meanEmbedding [] = none ∧
    (∀ v : List ℝ, meanEmbedding [v] = some v) ∧
    (∀ v : List ℝ, meanEmbedding [v, v] = some v) ∧
    (∀ (d : ℕ) (vs : List (List ℝ)), vs ≠ [] →
      (∀ v ∈ vs, v.length = d) →
      ∃ w : List ℝ, meanEmbedding vs = some w ∧ w.length = d ∧
        ∀ i, i < d → w.getD i 0 =
          (vs.map (fun v => v.getD i 0)).sum / (vs.length : ℝ)) := by
  refine ⟨rfl, ?_, ?_, ?_⟩
  · intro v
    simp [meanEmbedding]
  · intro v
    have h2 : ((1 + 1 : ℕ) : ℝ) = 2 := by norm_num
    simp only [meanEmbedding, List.foldl_cons, List.foldl_nil,
      List.length_cons, List.length_nil, Nat.zero_add, h2,
      half_vecAdd_self]
  · intro d vs hne hv
    cases vs with
    | nil => exact absurd rfl hne
    | cons v rest =>
      have hvlen : v.length = d := hv v (List.mem_cons_self _ _)
      have hrest : ∀ w ∈ rest, w.length = d :=
        fun w hw => hv w (List.mem_cons_of_mem _ hw)
      have hw : (rest.foldl vecAdd v).length = d :=
        foldl_vecAdd_length d rest v hvlen hrest
      refine ⟨_, rfl, by simp [hw], ?_⟩
      intro i hi
      have hi2 : i < ((rest.foldl vecAdd v).map
          (fun x => x / ((rest.length + 1 : ℕ) : ℝ))).length := by
        simp [hw]
        exact hi
      rw [List.getD_eq_getElem _ _ hi2, List.getElem_map,
        ← List.getD_eq_getElem _ 0 (by omega : i < (rest.foldl vecAdd v).length),
        foldl_vecAdd_getD d i hi rest v hvlen hrest]
      simp

/-- Witness for `meanEmbedding_spec`: singleton and pair lists of `[3]`, and
the two-vector mean of `[1, 2]` and `[3, 4]`. -/
theorem meanEmbedding_spec_witness :
    meanEmbedding [] = none ∧
    meanEmbedding [[(3 : ℝ)]] = some [(3 : ℝ)] ∧
    meanEmbedding [[(3 : ℝ)], [(3 : ℝ)]] = some [(3 : ℝ)] ∧
    ([[(1 : ℝ), 2], [3, 4]] : List (List ℝ)) ≠ [] ∧
    (∀ v ∈ ([[(1 : ℝ), 2], [3, 4]] : List (List ℝ)), v.length = 2) ∧
    (∃ w : List ℝ, meanEmbedding [[(1 : ℝ), 2], [3, 4]] = some w ∧
      w.length = 2 ∧
      ∀ i, i < 2 → w.getD i 0 =
        (([[(1 : ℝ), 2], [3, 4]] : List (List ℝ)).map
            (fun v => v.getD i 0)).sum /
          (([[(1 : ℝ), 2], [3, 4]] : List (List ℝ)).length : ℝ)) := by
  have h1 : ([[(1 : ℝ), 2], [3, 4]] : List (List ℝ)) ≠ [] := by simp
  have h2 : ∀ v ∈ ([[(1 : ℝ), 2], [3, 4]] : List (List ℝ)), v.length = 2 := by
    intro v hv
    rcases List.mem_cons.mp hv with h | h
    · simp [h]
    · rcases List.mem_cons.mp h with h | h
      · simp [h]
      · simp at h
  exact ⟨meanEmbedding_spec.1, meanEmbedding_spec.2.1 _,
    meanEmbedding_spec.2.2.1 _, h1, h2,
    meanEmbedding_spec.2.2.2 2 _ h1 h2⟩

/-- The recursive dot product as a finite sum over positions. -/
theorem dot_eq_sum (a : List ℝ) :
    ∀ b : List ℝ, dot a b =
      ∑ i ∈ Finset.range (min a.length b.length),
        a.getD i 0 * b.getD i 0 := by
  induction a with
  | nil => intro b; simp [dot]
  | cons x xs ih =>
    intro b
    cases b with
    | nil => simp [dot]
    | cons y ys =>
      rw [show dot (x :: xs) (y :: ys) = x * y + dot xs ys from rfl, ih ys,
        List.length_cons, List.length_cons, Nat.succ_min_succ,
        Finset.sum_range_succ']
      simp only [List.getD_cons_succ, List.getD_cons_zero]
      ring

/-- The squared norm as a sum of squared entries. -/
theorem normSq_eq_sum (a : List ℝ) :
    normSq a = ∑ i ∈ Finset.range a.length, a.getD i 0 ^ 2 := by
  rw [normSq, dot_eq_sum a a, min_self]
  exact Finset.sum_congr rfl fun i _ => (pow_two _).symm

/-- Squared norms are nonnegative. -/
theorem normSq_nonneg (a : List ℝ) : 0 ≤ normSq a := by
  rw [normSq_eq_sum]
  exact Finset.sum_nonneg fun i _ => sq_nonneg _

/-- A vector with some nonzero entry has positive squared norm. -/
theorem normSq_pos (a : List ℝ) (h : ∃ x ∈ a, x ≠ 0) : 0 < normSq a := by
  obtain ⟨x, hx, hx0⟩ := h
  obtain ⟨i, hi, hix⟩ := List.getElem_of_mem hx
  rw [normSq_eq_sum]
  refine Finset.sum_pos' (fun j _ => sq_nonneg _)
    ⟨i, Finset.mem_range.mpr hi, ?_⟩
  rw [List.getD_eq_getElem _ _ hi, hix]
  exact lt_of_le_of_ne (sq_nonneg x) (Ne.symm (pow_ne_zero 2 hx0))

/-- Cauchy-Schwarz for the list dot product, upper side. -/
theorem dot_le_sqrt (a b : List ℝ) (h : a.length = b.length) :
    dot a b ≤ Real.sqrt (normSq a) * Real.sqrt (normSq b) := by
  rw [dot_eq_sum a b, normSq_eq_sum, normSq_eq_sum, h, min_self]
  exact Real.sum_mul_le_sqrt_mul_sqrt _ _ _

/-- Cauchy-Schwarz for the list dot product, lower side. -/
theorem neg_dot_le_sqrt (a b : List ℝ) (h : a.length = b.length) :
    -dot a b ≤ Real.sqrt (normSq a) * Real.sqrt (normSq b) := by
  rw [dot_eq_sum a b, normSq_eq_sum, normSq_eq_sum, h, min_self]
  have hcs := Real.sum_mul_le_sqrt_mul_sqrt (Finset.range b.length)
    (fun i => -(a.getD i 0)) (fun i => b.getD i 0)
  simp only [neg_mul, Finset.sum_neg_distrib, neg_sq] at hcs
  exact hcs

/-- On nonempty, equal-length inputs the sentinel guard is off and the
cosine is the normalized dot product. -/
theorem cosineSimilarity_eq_div (a b : List ℝ) (ha : a ≠ []) (hb : b ≠ [])
    (h : a.length = b.length) :
    cosineSimilarity a b =
      dot a b / (Real.sqrt (normSq a) * Real.sqrt (normSq b)) := by
  rw [cosineSimilarity, if_neg]
  push_neg
  refine ⟨by simpa using ha, by simpa using hb, h⟩

/-- C5: `cosineSimilarity` lies in [-1, 1] for any two equal-length vectors
that each have a nonzero entry; it equals exactly 1 on identical nonzero
vectors and exactly 0 on orthogonal ones; and it returns the sentinel -1
whenever either input is empty or the lengths differ. -/
theorem cosineSimilarity_spec :
    (∀ a b : List ℝ, a.length = b.length → (∃ x ∈ a, x ≠ 0) →
      (∃ x ∈ b, x ≠ 0) →
      -1 ≤ cosineSimilarity a b ∧ cosineSimilarity a b ≤ 1) ∧
    (∀ a : List ℝ, (∃ x ∈ a, x ≠ 0) → cosineSimilarity a a = 1) ∧
    (∀ a b : List ℝ, a.length = b.length → (∃ x ∈ a, x ≠ 0) →
      (∃ x ∈ b, x ≠ 0) → dot a b = 0 → cosineSimilarity a b = 0) ∧
    (∀ a b : List ℝ, a = [] ∨ b = [] ∨ a.length ≠ b.length →
      cosineSimilarity a b = -1) := by
  refine ⟨?_, ?_, ?_, ?_⟩
  · intro a b h ha hb
    obtain ⟨x, hxa, hx0⟩ := ha
    obtain ⟨y, hyb, hy0⟩ := hb
    have hA : 0 < normSq a := normSq_pos a ⟨x, hxa, hx0⟩
    have hB : 0 < normSq b := normSq_pos b ⟨y, hyb, hy0⟩
    have hD : 0 < Real.sqrt (normSq a) * Real.sqrt (normSq b) :=
      mul_pos (Real.sqrt_pos.mpr hA) (Real.sqrt_pos.mpr hB)
    rw [cosineSimilarity_eq_div a b (List.ne_nil_of_mem hxa)
      (List.ne_nil_of_mem hyb) h]
    constructor
    · rw [le_div_iff₀ hD]
      have := neg_dot_le_sqrt a b h
      linarith
    · rw [div_le_one hD]
      exact dot_le_sqrt a b h
  · intro a ha
    obtain ⟨x, hxa, hx0⟩ := ha
    have hA : 0 < normSq a := normSq_pos a ⟨x, hxa, hx0⟩
    rw [cosineSimilarity_eq_div a a (List.ne_nil_of_mem hxa)
      (List.ne_nil_of_mem hxa) rfl,
      Real.mul_self_sqrt (le_of_lt hA)]
    exact div_self (ne_of_gt hA)
  · intro a b h ha hb hd
    obtain ⟨x, hxa, _⟩ := ha
    obtain ⟨y, hyb, _⟩ := hb
    rw [cosineSimilarity_eq_div a b (List.ne_nil_of_mem hxa)
      (List.ne_nil_of_mem hyb) h, hd, zero_div]
  · intro a b h
    rw [cosineSimilarity, if_pos]
    rcases h with h | h | h
    · exact Or.inl (by simp [h])
    · exact Or.inr (Or.inl (by simp [h]))
    · exact Or.inr (Or.inr h)

/-- Witness for `cosineSimilarity_spec`: the standard basis pair `[1, 0]`,
`[0, 1]` (orthogonal, bounded), the identical pair, and an empty input. -/
theorem cosineSimilarity_spec_witness :
    (-1 ≤ cosineSimilarity [(1 : ℝ), 0] [(0 : ℝ), 1] ∧
      cosineSimilarity [(1 : ℝ), 0] [(0 : ℝ), 1] ≤ 1) ∧
    cosineSimilarity [(1 : ℝ), 0] [(1 : ℝ), 0] = 1 ∧
    cosineSimilarity [(1 : ℝ), 0] [(0 : ℝ), 1] = 0 ∧
    cosineSimilarity [] [(1 : ℝ)] = -1 := by
  have hx : ∃ x ∈ [(1 : ℝ), 0], x ≠ 0 := ⟨1, by simp, one_ne_zero⟩
  have hy : ∃ x ∈ [(0 : ℝ), 1], x ≠ 0 := ⟨1, by simp, one_ne_zero⟩
  have hd : dot [(1 : ℝ), 0] [(0 : ℝ), 1] = 0 := by norm_num [dot]
  exact ⟨cosineSimilarity_spec.1 _ _ rfl hx hy,
    cosineSimilarity_spec.2.1 _ hx,
    cosineSimilarity_spec.2.2.1 _ _ rfl hx hy hd,
    cosineSimilarity_spec.2.2.2 _ _ (Or.inl rfl)⟩
